import Mathlib

/-!
# A verification model of the `WebCrawler` class (src/webCrawler.js)

This file gives a shallow embedding of the crawl engine in
`src/webCrawler.js`: the crawl scheduler loop (`crawl`), the
fetch-and-retry unit (`crawlPage`), the URL filter
(`extractAndFilterUrls`), the robots cache (`isAllowedByRobots`),
and the metadata extractors (`extractHeadings`, `extractLinks`,
`extractImages`).

External collaborators (the HTTP transport `axios`, the HTML parser
`cheerio`, the `url-parse` URL parser, `robots-parser`, and JavaScript
regular expressions) are modelled as components of an `Env` record:
the source calls them through a narrow interface and their internals
are out of scope.  JavaScript exceptions are modelled with `Except`;
the asynchronous batch (`Promise.allSettled` over `p-limit`ed tasks)
is modelled as a two-phase loop: first every page of the batch is
fetched (mutating the visited set and the robots cache, in order),
then the settled outcomes are processed in batch order, exactly as
the `for` loop over `batchResults` does.  Wall-clock sleeps
(`this.sleep`) have no state effect and are recorded only where a
claim mentions them (the retry backoff).
-/

/-- A parsed URL as produced by `url-parse`'s `new URL(s)`:
`protocol` keeps the trailing colon (`"http:"`), `hostname` is the
host without the port, `host` includes the port. -/
structure UrlObj where
  protocol : String
  hostname : String
  host : String
deriving Repr, DecidableEq

/-- An `<a href=...>` element as seen by cheerio: the `href` attribute,
the element text, and the optional `title` attribute. -/
structure Anchor where
  href : String
  text : String
  title : Option String
deriving Repr, DecidableEq

/-- An `<img src=...>` element as seen by cheerio. -/
structure ImgEl where
  src : String
  alt : Option String
  title : Option String
  width : Option String
  height : Option String
deriving Repr, DecidableEq

/-- The queryable document produced by `cheerio.load(response.data)`,
restricted to the selectors the crawler uses.  `headingTexts tag` is
the ordered list of raw texts of the elements matching `tag`
(`h1` … `h6`); `metaDescription`/`metaKeywords` are the `content`
attributes of the corresponding meta tags (`none` when absent). -/
structure Doc where
  titleText : String
  metaDescription : Option String
  metaKeywords : Option String
  headingTexts : String → List String
  anchors : List Anchor
  imgs : List ImgEl

/-- A successful `axios` response for a page fetch, together with its
parsed document and the elapsed fetch time.  `responseUrl` models
`response.request.res.responseUrl` (the post-redirect URL, when the
transport reports one), `contentTypeHeader` models
`response.headers['content-type']` (absent headers give `none`). -/
structure Response where
  contentTypeHeader : Option String
  status : Nat
  data : String
  responseUrl : Option String
  doc : Doc
  elapsedMs : Nat

/-- A parsed robots rule set as returned by `robots-parser`; its
`isAllowed` check may itself fail (modelled with `Except`), which the
source's outer `try/catch` turns into "allow". -/
structure RobotsRules where
  isAllowed : String → String → Except String Bool

/-- The external world: page fetches (indexed by the retry counter at
the moment of the attempt), robots.txt fetches, the robots parser, the
URL parser `new URL(s)` (total: `url-parse` does not throw on plain
parses), relative-URL resolution `new URL(href, base).toString()`
(`none` models a throw, caught by the source), and
`new RegExp(p).test(u)`. -/
structure Env where
  net : String → Nat → Except String Response
  robotsFetch : String → Except String String
  robotsParse : String → String → RobotsRules
  parse : String → UrlObj
  resolve : String → String → Option String
  regexTest : String → String → Bool
  nowIso : String

/-- The recognised options of the `WebCrawler` constructor
(`this.options`). `delay` and `timeout` are kept for completeness but
have no state effect in the model. -/
structure Options where
  maxDepth : Nat
  maxPages : Nat
  maxConcurrency : Nat
  delay : Nat
  timeout : Nat
  followExternalLinks : Bool
  respectRobotsTxt : Bool
  userAgent : String
  allowedDomains : List String
  excludePatterns : List String
  includePatterns : List String
  maxRetries : Nat

/-- A link entry of `PageResult.links` as built by `extractLinks`. -/
structure LinkOut where
  url : String
  text : String
  title : String
deriving Repr, DecidableEq

/-- An image entry of `PageResult.images` as built by `extractImages`. -/
structure ImageOut where
  url : String
  alt : String
  title : String
  width : String
  height : String
deriving Repr, DecidableEq

/-- The result object built for a successfully crawled HTML page
(`crawlPage`, lines 167–183 of src/webCrawler.js). -/
structure PageResult where
  url : String
  originalUrl : String
  title : String
  description : String
  keywords : String
  headings : List (String × List String)
  links : List LinkOut
  images : List ImageOut
  statusCode : Nat
  contentLength : Nat
  contentType : String
  crawlTime : Nat
  depth : Nat
  parent : Option String
  timestamp : String
deriving Repr, DecidableEq

/-- The mutable per-instance state of a `WebCrawler`
(`this.visitedUrls`, `this.failedUrls`, `this.results`,
`this.robotsCache`).  JavaScript `Set`s are lists that are only ever
extended with elements not already present; the robots `Map` is an
association list keyed by the robots.txt URL, with `none` as the
"allow all" sentinel the source stores as `null`. -/
structure CrawlerState where
  visitedUrls : List String
  failedUrls : List String
  results : List PageResult
  robotsCache : List (String × Option RobotsRules)

/-- An item of the frontier queue (`{ url, depth, parent }`). -/
structure QueueItem where
  url : String
  depth : Nat
  parent : Option String
deriving Repr, DecidableEq

/-- The notifications the crawler emits (`this.emit`). -/
inductive Event where
  | page (result : PageResult)
  | pageError (url : String) (err : String)
  | complete
deriving Repr, DecidableEq

/-- The run summary computed at the end of `crawl`. `averageTime` uses
rational division, matching JavaScript's true division. -/
structure Summary where
  totalPages : Nat
  failedPages : Nat
  totalTime : Nat
  averageTime : ℚ
deriving Repr, DecidableEq

/-- JavaScript `Set.prototype.add`: insert if absent. -/
def setInsert (s : List String) (x : String) : List String :=
  if x ∈ s then s else x :: s

/-- JavaScript `string.includes(pat)`: substring containment. -/
def strContains (s pat : String) : Bool :=
  (List.range (s.toList.length + 1)).any
    (fun i => decide ((s.toList.drop i).take pat.toList.length = pat.toList))

/-- JavaScript `string.trim()`: strip whitespace from both ends.
(Executable over the character list; Lean's own `String.trim` is
defined by well-founded recursion on byte positions and does not
evaluate inside the kernel.) -/
def jsTrim (s : String) : String :=
  ⟨((s.toList.dropWhile Char.isWhitespace).reverse.dropWhile Char.isWhitespace).reverse⟩

/-- `[...new Set(l)]`: deduplication keeping the first occurrence of
each element, in order. -/
def dedupFirst : List String → List String
  | [] => []
  | x :: xs => x :: (dedupFirst xs).filter (fun y => y ≠ x)

theorem mem_dedupFirst {a : String} : ∀ {l : List String}, a ∈ dedupFirst l ↔ a ∈ l := by
  intro l
  induction l with
  | nil => simp [dedupFirst]
  | cons x xs ih =>
    simp only [dedupFirst, List.mem_cons, List.mem_filter, decide_eq_true_iff]
    constructor
    · rintro (rfl | ⟨h, _⟩)
      · exact Or.inl rfl
      · exact Or.inr (ih.mp h)
    · rintro (rfl | h)
      · exact Or.inl rfl
      · by_cases hax : a = x
        · exact Or.inl hax
        · exact Or.inr ⟨ih.mpr h, hax⟩

theorem nodup_dedupFirst : ∀ (l : List String), (dedupFirst l).Nodup := by
  intro l
  induction l with
  | nil => simp [dedupFirst]
  | cons x xs ih =>
    simp only [dedupFirst, List.nodup_cons]
    constructor
    · intro hmem
      have := List.of_mem_filter hmem
      simp at this
    · exact ih.filter _

theorem setInsert_nodup {s : List String} {x : String} (h : s.Nodup) :
    (setInsert s x).Nodup := by
  unfold setInsert
  split
  · exact h
  · exact List.nodup_cons.mpr ⟨by assumption, h⟩

/-- The fixed heading selectors of `extractHeadings`. -/
def headingTags : List String := ["h1", "h2", "h3", "h4", "h5", "h6"]

/-- `extractHeadings($)` (lines 199–211): for each of `h1`…`h6`, the
ordered list of trimmed, non-empty element texts. -/
def extractHeadings (doc : Doc) : List (String × List String) :=
  headingTags.map (fun tag =>
    (tag, (doc.headingTexts tag).filterMap (fun t =>
      if jsTrim t = "" then none else some (jsTrim t))))

/-- `extractLinks($, baseUrl)` (lines 213–236): every `a[href]` element
with a truthy `href`, resolved against `baseUrl`; elements whose
resolution throws are dropped. -/
def extractLinks (env : Env) (doc : Doc) (baseUrl : String) : List LinkOut :=
  doc.anchors.filterMap (fun a =>
    if a.href = "" then none
    else match env.resolve a.href baseUrl with
      | some absoluteUrl => some ⟨absoluteUrl, jsTrim a.text, a.title.getD ""⟩
      | none => none)

/-- `extractImages($, baseUrl)` (lines 238–261). -/
def extractImages (env : Env) (doc : Doc) (baseUrl : String) : List ImageOut :=
  doc.imgs.filterMap (fun img =>
    if img.src = "" then none
    else match env.resolve img.src baseUrl with
      | some absoluteUrl =>
          some ⟨absoluteUrl, img.alt.getD "", img.title.getD "",
                img.width.getD "", img.height.getD ""⟩
      | none => none)

/-- The per-link body of the `for` loop of `extractAndFilterUrls`
(lines 267–300): the rule chain applied to one discovered link,
short-circuiting with `none` on the first rejection. -/
def filterLink (env : Env) (opts : Options) (baseUrlObj : UrlObj)
    (link : LinkOut) : Option String :=
  let url := link.url
  let urlObj := env.parse url
  if urlObj.protocol ∉ (["http:", "https:"] : List String) then none
  else if opts.followExternalLinks = false ∧ urlObj.hostname ≠ baseUrlObj.hostname then none
  else if opts.allowedDomains ≠ [] ∧ urlObj.hostname ∉ opts.allowedDomains then none
  else if opts.excludePatterns.any (fun pattern => env.regexTest pattern url) then none
  else if opts.includePatterns ≠ [] ∧
      ¬(opts.includePatterns.any (fun pattern => env.regexTest pattern url) = true) then none
  else some url

/-- `extractAndFilterUrls(links, baseUrl, depth)` (lines 263–303):
apply the rule chain to each link and return `[...new Set(...)]` of
the survivors.  The `depth` parameter is unused in the source body and
omitted here. -/
def extractAndFilterUrls (env : Env) (opts : Options) (links : List LinkOut)
    (baseUrl : String) : List String :=
  dedupFirst (links.filterMap (filterLink env opts (env.parse baseUrl)))

/-- `isAllowedByRobots(url)` (lines 305–328).  The inner `try/catch`
around the robots.txt fetch stores the `null` ("allow all") sentinel
on any fetch failure; the stored rule set's own `isAllowed` call is
guarded by the outer `try/catch`, which turns any internal error into
`true`.  Returns the updated cache and the verdict. -/
def isAllowedByRobots (env : Env) (opts : Options)
    (cache : List (String × Option RobotsRules)) (url : String) :
    List (String × Option RobotsRules) × Bool :=
  let urlObj := env.parse url
  let robotsUrl := urlObj.protocol ++ "//" ++ urlObj.host ++ "/robots.txt"
  let cache' :=
    if (cache.lookup robotsUrl).isSome then cache
    else match env.robotsFetch robotsUrl with
      | .ok body => (robotsUrl, some (env.robotsParse robotsUrl body)) :: cache
      | .error _ => (robotsUrl, none) :: cache
  let allowed :=
    match cache'.lookup robotsUrl with
    | some (some robots) =>
        match robots.isAllowed url opts.userAgent with
        | .ok b => b
        | .error _ => true
    | some none => true
    | none => true
  (cache', allowed)

/-- The retry loop of `crawlPage` (lines 150–196), isolated: `retries`
is the loop counter, `net k` the fetch attempted while the counter is
`k`.  Returns (number of fetch attempts made, the backoff sleeps in
milliseconds in order, the final outcome).  On a failed attempt the
counter is incremented; if it now exceeds `maxRetries` the error is
rethrown, otherwise the loop sleeps `1000 * retries` ms and retries. -/
def fetchRetry (net : Nat → Except String Response) (maxRetries : Nat)
    (retries : Nat) : Nat × List Nat × Except String Response :=
  if h : retries ≤ maxRetries then
    match net retries with
    | .ok response => (1, [], .ok response)
    | .error e =>
      if maxRetries < retries + 1 then (1, [], .error e)
      else
        let rest := fetchRetry net maxRetries (retries + 1)
        (rest.1 + 1, 1000 * (retries + 1) :: rest.2.1, rest.2.2)
  else (0, [], .error "loop exited")
termination_by maxRetries + 1 - retries
decreasing_by omega

/-- The `PageResult` built for a successful HTML response
(lines 167–183): redirect-resolved URL, `'No title'` fallback, empty
fallbacks for the meta tags, extracted headings/links/images, and the
bookkeeping fields. -/
def buildResult (env : Env) (response : Response) (url : String) (depth : Nat)
    (parent : Option String) (contentType : String) : PageResult :=
  { url := response.responseUrl.getD url
    originalUrl := url
    title := if jsTrim response.doc.titleText = "" then "No title"
             else jsTrim response.doc.titleText
    description := response.doc.metaDescription.getD ""
    keywords := response.doc.metaKeywords.getD ""
    headings := extractHeadings response.doc
    links := extractLinks env response.doc url
    images := extractImages env response.doc url
    statusCode := response.status
    contentLength := response.data.length
    contentType := contentType
    crawlTime := response.elapsedMs
    depth := depth
    parent := parent
    timestamp := env.nowIso }

/-- What a `crawlPage` call produces: the state after the call, the
settled outcome (`.error` models a rejected promise, `.ok none` the
`null` returns), and the fetch attempts / backoff sleeps it made. -/
structure CrawlPageOut where
  state : CrawlerState
  outcome : Except String (Option PageResult)
  attempts : Nat
  sleeps : List Nat

/-- `crawlPage(url, depth, parent)` (lines 134–197): return `null` at
once for an already-visited URL; otherwise mark the URL visited, then
(when `respectRobotsTxt` is set) consult the robots cache and return
`null` when disallowed; otherwise run the retry loop and, on a
successful fetch, skip non-HTML responses (`null`) or build the
`PageResult`. -/
def crawlPage (opts : Options) (env : Env) (st : CrawlerState) (url : String)
    (depth : Nat) (parent : Option String) : CrawlPageOut :=
  if url ∈ st.visitedUrls then ⟨st, .ok none, 0, []⟩
  else
    let st1 : CrawlerState := { st with visitedUrls := url :: st.visitedUrls }
    let checked : CrawlerState × Bool :=
      if opts.respectRobotsTxt then
        let c := isAllowedByRobots env opts st1.robotsCache url
        ({ st1 with robotsCache := c.1 }, c.2)
      else (st1, true)
    if checked.2 = false then ⟨checked.1, .ok none, 0, []⟩
    else
      let fr := fetchRetry (env.net url) opts.maxRetries 0
      match fr.2.2 with
      | .error e => ⟨checked.1, .error e, fr.1, fr.2.1⟩
      | .ok response =>
        let contentType := response.contentTypeHeader.getD ""
        if strContains contentType "text/html" = false then
          ⟨checked.1, .ok none, fr.1, fr.2.1⟩
        else
          ⟨checked.1, .ok (some (buildResult env response url depth parent contentType)),
           fr.1, fr.2.1⟩

/-- Phase one of a loop iteration of `crawl` (lines 70–75): run
`crawlPage` for every item of the batch and collect the settled
outcomes in batch order.  The concurrent tasks mutate the shared
visited set and robots cache; the model threads the state through the
calls in order (the visited check-and-add of each task is a single
synchronous step in the source's event loop). -/
def dispatchBatch (opts : Options) (env : Env) :
    CrawlerState → List QueueItem →
    CrawlerState × List (Except String (Option PageResult))
  | st, [] => (st, [])
  | st, item :: rest =>
    let out := crawlPage opts env st item.url item.depth item.parent
    let r := dispatchBatch opts env out.state rest
    (r.1, out.outcome :: r.2)

/-- The body of the `for` loop over `batchResults` (lines 77–106) for
one settled outcome: a fulfilled non-null result is appended to
`results`, its filtered links are enqueued (when `item.depth <
maxDepth`, each at `item.depth + 1`, skipping URLs already visited or
failed) and a `page` event is emitted; a fulfilled `null` does
nothing; a rejection adds the URL to `failedUrls` and emits an
`error` event. -/
def processOutcome (opts : Options) (env : Env) (st : CrawlerState)
    (queue : List QueueItem) (events : List Event) (item : QueueItem)
    (outcome : Except String (Option PageResult)) :
    CrawlerState × List QueueItem × List Event :=
  match outcome with
  | .ok (some crawlResult) =>
    let st1 : CrawlerState := { st with results := st.results ++ [crawlResult] }
    let queue1 :=
      if item.depth < opts.maxDepth then
        let newUrls := extractAndFilterUrls env opts crawlResult.links crawlResult.url
        queue ++ (newUrls.filter (fun url =>
            decide (url ∉ st1.visitedUrls ∧ url ∉ st1.failedUrls))).map
          (fun url => ⟨url, item.depth + 1, some crawlResult.url⟩)
      else queue
    (st1, queue1, events ++ [Event.page crawlResult])
  | .ok none => (st, queue, events)
  | .error e =>
    ({ st with failedUrls := setInsert st.failedUrls item.url }, queue,
     events ++ [Event.pageError item.url e])

/-- Phase two of a loop iteration: fold `processOutcome` over the
batch items paired with their settled outcomes, in batch order. -/
def processResults (opts : Options) (env : Env) :
    CrawlerState → List QueueItem → List Event →
    List (QueueItem × Except String (Option PageResult)) →
    CrawlerState × List QueueItem × List Event
  | st, queue, events, [] => (st, queue, events)
  | st, queue, events, (item, outcome) :: rest =>
    let r := processOutcome opts env st queue events item outcome
    processResults opts env r.1 r.2.1 r.2.2 rest

theorem crawlPage_results (opts : Options) (env : Env) (st : CrawlerState)
    (url : String) (depth : Nat) (parent : Option String) :
    (crawlPage opts env st url depth parent).state.results = st.results := by
  unfold crawlPage
  dsimp only
  repeat' split
  all_goals rfl

theorem dispatchBatch_results (opts : Options) (env : Env) :
    ∀ (batch : List QueueItem) (st : CrawlerState),
    (dispatchBatch opts env st batch).1.results = st.results := by
  intro batch
  induction batch with
  | nil => intro st; rfl
  | cons item rest ih =>
    intro st
    simp only [dispatchBatch]
    rw [ih, crawlPage_results]

theorem processOutcome_results (opts : Options) (env : Env) (st : CrawlerState)
    (queue : List QueueItem) (events : List Event) (item : QueueItem)
    (outcome : Except String (Option PageResult)) :
    ∃ added, (processOutcome opts env st queue events item outcome).1.results =
      st.results ++ added ∧ added.length ≤ 1 ∧
      (added = [] → (processOutcome opts env st queue events item outcome).2.1 = queue) := by
  unfold processOutcome
  match outcome with
  | .ok (some r) =>
    refine ⟨[r], rfl, by simp, ?_⟩
    intro h; cases h
  | .ok none => exact ⟨[], by simp, by simp, fun _ => rfl⟩
  | .error e => exact ⟨[], by simp, by simp, fun _ => rfl⟩

theorem processResults_spec (opts : Options) (env : Env) :
    ∀ (l : List (QueueItem × Except String (Option PageResult)))
      (st : CrawlerState) (queue : List QueueItem) (events : List Event),
    ∃ added, (processResults opts env st queue events l).1.results = st.results ++ added ∧
      added.length ≤ l.length ∧
      (added = [] → (processResults opts env st queue events l).2.1 = queue) := by
  intro l
  induction l with
  | nil =>
    intro st queue events
    exact ⟨[], by simp [processResults], by simp, fun _ => rfl⟩
  | cons p rest ih =>
    intro st queue events
    obtain ⟨item, outcome⟩ := p
    obtain ⟨a₁, ha₁, hlen₁, hq₁⟩ := processOutcome_results opts env st queue events item outcome
    simp only [processResults]
    obtain ⟨a₂, ha₂, hlen₂, hq₂⟩ :=
      ih (processOutcome opts env st queue events item outcome).1
         (processOutcome opts env st queue events item outcome).2.1
         (processOutcome opts env st queue events item outcome).2.2
    refine ⟨a₁ ++ a₂, ?_, ?_, ?_⟩
    · rw [ha₂, ha₁, List.append_assoc]
    · simp only [List.length_append, List.length_cons]
      omega
    · intro h
      rw [List.append_eq_nil] at h
      rw [hq₂ h.2, hq₁ h.1]

theorem processResults_length_le (opts : Options) (env : Env)
    (l : List (QueueItem × Except String (Option PageResult)))
    (st : CrawlerState) (queue : List QueueItem) (events : List Event) :
    (processResults opts env st queue events l).1.results.length ≤
      st.results.length + l.length := by
  obtain ⟨added, ha, hlen, _⟩ := processResults_spec opts env l st queue events
  rw [ha]
  simp only [List.length_append]
  omega

/-- The `while` loop of `crawl` (lines 69–112): while the queue is
non-empty and fewer than `maxPages` results have been collected,
splice off a batch of at most `maxConcurrency` items, dispatch it, and
process the settled outcomes.  The hypothesis `0 < maxConcurrency`
reflects that `p-limit` rejects a zero concurrency at construction
(and with it the loop would not terminate). -/
def crawlLoop (opts : Options) (env : Env) (hC : 0 < opts.maxConcurrency) :
    CrawlerState → List QueueItem → List Event → CrawlerState × List Event
  | st, queue, events =>
    if h : queue ≠ [] ∧ st.results.length < opts.maxPages then
      let d := dispatchBatch opts env st (queue.take opts.maxConcurrency)
      let p := processResults opts env d.1 (queue.drop opts.maxConcurrency) events
        ((queue.take opts.maxConcurrency).zip d.2)
      crawlLoop opts env hC p.1 p.2.1 p.2.2
    else (st, events)
termination_by st queue _ => (opts.maxPages - st.results.length, queue.length)
decreasing_by
  · have hd : (dispatchBatch opts env st (queue.take opts.maxConcurrency)).1.results
        = st.results := dispatchBatch_results opts env _ st
    obtain ⟨added, hadd, hlen, hq⟩ := processResults_spec opts env
      ((queue.take opts.maxConcurrency).zip
        (dispatchBatch opts env st (queue.take opts.maxConcurrency)).2)
      (dispatchBatch opts env st (queue.take opts.maxConcurrency)).1
      (queue.drop opts.maxConcurrency) events
    rw [hd] at hadd
    by_cases hnil : added = []
    · have hqeq := hq hnil
      have hres : (processResults opts env
          (dispatchBatch opts env st (queue.take opts.maxConcurrency)).1
          (queue.drop opts.maxConcurrency) events
          ((queue.take opts.maxConcurrency).zip
            (dispatchBatch opts env st (queue.take opts.maxConcurrency)).2)).1.results
          = st.results := by rw [hadd, hnil, List.append_nil]
      rw [hres, hqeq]
      have hql : 0 < queue.length := List.length_pos.mpr h.1
      have : (queue.drop opts.maxConcurrency).length < queue.length := by
        rw [List.length_drop]; omega
      exact Prod.Lex.right _ this
    · have hres : st.results.length < (processResults opts env
          (dispatchBatch opts env st (queue.take opts.maxConcurrency)).1
          (queue.drop opts.maxConcurrency) events
          ((queue.take opts.maxConcurrency).zip
            (dispatchBatch opts env st (queue.take opts.maxConcurrency)).2)).1.results.length := by
        rw [hadd]
        simp only [List.length_append]
        have : 0 < added.length := List.length_pos.mpr hnil
        omega
      have h2 := h.2
      exact Prod.Lex.left _ _ (by omega)

/-- `averageTime` uses JavaScript's true division; the summary object
of lines 115–120. -/
def mkSummary (results : List PageResult) (failedCount : Nat) (elapsed : Nat) :
    Summary :=
  { totalPages := results.length
    failedPages := failedCount
    totalTime := elapsed
    averageTime := if 0 < results.length then (elapsed : ℚ) / (results.length : ℚ) else 0 }

/-- The value `crawl` resolves with, together with the notifications
it emitted along the way. -/
structure CrawlOutput where
  state : CrawlerState
  events : List Event
  summary : Summary

/-- `crawl(startUrl)` (lines 62–132): seed the queue with
`{url: startUrl, depth: 0, parent: null}` — without resetting any of
the instance state — run the loop, compute the summary over the
instance's (accumulated) results and failed set, and emit `complete`.
`elapsedMs` is the wall-clock `endTime - startTime` the source
measures. -/
def crawl (opts : Options) (env : Env) (hC : 0 < opts.maxConcurrency)
    (st : CrawlerState) (startUrl : String) (elapsedMs : Nat) : CrawlOutput :=
  let r := crawlLoop opts env hC st [⟨startUrl, 0, none⟩] []
  { state := r.1
    events := r.2 ++ [Event.complete]
    summary := mkSummary r.1.results r.1.failedUrls.length elapsedMs }

/-! ## Evaluation lemmas for the two well-founded recursions -/

theorem fetchRetry_first_ok (net : Nat → Except String Response)
    (maxRetries : Nat) (resp : Response) (h : net 0 = .ok resp) :
    fetchRetry net maxRetries 0 = (1, [], .ok resp) := by
  rw [fetchRetry]
  simp [h]

theorem fetchRetry_all_fail (net : Nat → Except String Response) (f : Nat → String)
    (hf : ∀ k, net k = .error (f k)) (maxRetries : Nat) :
    ∀ r, r ≤ maxRetries → fetchRetry net maxRetries r =
      (maxRetries + 1 - r,
       (List.range (maxRetries - r)).map (fun k => 1000 * (r + 1 + k)),
       .error (f maxRetries)) := by
  have key : ∀ gas r, r ≤ maxRetries → maxRetries - r = gas →
      fetchRetry net maxRetries r =
        (maxRetries + 1 - r,
         (List.range (maxRetries - r)).map (fun k => 1000 * (r + 1 + k)),
         .error (f maxRetries)) := by
    intro gas
    induction gas with
    | zero =>
      intro r hr hg
      have hrm : r = maxRetries := by omega
      subst hrm
      rw [fetchRetry, hf r]
      simp
    | succ gas ih =>
      intro r hr hg
      have hrm : r < maxRetries := by omega
      rw [fetchRetry, hf r]
      have hnot : ¬ maxRetries < r + 1 := by omega
      simp only [dif_pos hr, if_neg hnot]
      rw [ih (r + 1) (by omega) (by omega)]
      refine congrArg₂ Prod.mk (by omega) (congrArg₂ Prod.mk ?_ rfl)
      have hmr : maxRetries - r = (maxRetries - (r + 1)) + 1 := by omega
      rw [hmr, List.range_succ_eq_map, List.map_cons, List.map_map]
      refine congrArg₂ List.cons (by omega) ?_
      refine List.map_congr_left (fun k _ => ?_)
      simp only [Function.comp_apply, Nat.succ_eq_add_one]
      ring
  exact fun r hr => key (maxRetries - r) r hr rfl

theorem crawlPage_visited (opts : Options) (env : Env) (st : CrawlerState)
    (url : String) (depth : Nat) (parent : Option String)
    (h : url ∈ st.visitedUrls) :
    crawlPage opts env st url depth parent = ⟨st, .ok none, 0, []⟩ := by
  rw [crawlPage]
  simp [h]

theorem crawlPage_success_robotsOff (opts : Options) (env : Env) (st : CrawlerState)
    (url : String) (depth : Nat) (parent : Option String) (resp : Response)
    (hv : url ∉ st.visitedUrls)
    (hrob : opts.respectRobotsTxt = false)
    (hnet : env.net url 0 = .ok resp)
    (hct : strContains (resp.contentTypeHeader.getD "") "text/html" = true) :
    crawlPage opts env st url depth parent =
      ⟨{ st with visitedUrls := url :: st.visitedUrls },
       .ok (some (buildResult env resp url depth parent (resp.contentTypeHeader.getD ""))),
       1, []⟩ := by
  rw [crawlPage]
  rw [if_neg hv]
  simp only [hrob, Bool.false_eq_true, if_false]
  rw [fetchRetry_first_ok _ _ _ hnet]
  simp [hct]

theorem crawlLoop_stop (opts : Options) (env : Env) (hC : 0 < opts.maxConcurrency)
    (st : CrawlerState) (queue : List QueueItem) (events : List Event)
    (h : ¬(queue ≠ [] ∧ st.results.length < opts.maxPages)) :
    crawlLoop opts env hC st queue events = (st, events) := by
  rw [crawlLoop]
  simp [h]

theorem crawlLoop_step (opts : Options) (env : Env) (hC : 0 < opts.maxConcurrency)
    (st : CrawlerState) (queue : List QueueItem) (events : List Event)
    (h : queue ≠ [] ∧ st.results.length < opts.maxPages) :
    crawlLoop opts env hC st queue events =
      crawlLoop opts env hC
        (processResults opts env
          (dispatchBatch opts env st (queue.take opts.maxConcurrency)).1
          (queue.drop opts.maxConcurrency) events
          ((queue.take opts.maxConcurrency).zip
            (dispatchBatch opts env st (queue.take opts.maxConcurrency)).2)).1
        (processResults opts env
          (dispatchBatch opts env st (queue.take opts.maxConcurrency)).1
          (queue.drop opts.maxConcurrency) events
          ((queue.take opts.maxConcurrency).zip
            (dispatchBatch opts env st (queue.take opts.maxConcurrency)).2)).2.1
        (processResults opts env
          (dispatchBatch opts env st (queue.take opts.maxConcurrency)).1
          (queue.drop opts.maxConcurrency) events
          ((queue.take opts.maxConcurrency).zip
            (dispatchBatch opts env st (queue.take opts.maxConcurrency)).2)).2.2 := by
  rw [crawlLoop]
  simp [h]

/-- One loop iteration of `crawl`, packaged with the batch split and
the two phases as explicit equations, for computing concrete runs. -/
theorem crawlLoop_step_batch (opts : Options) (env : Env)
    (hC : 0 < opts.maxConcurrency) (st : CrawlerState) (queue : List QueueItem)
    (events : List Event) (batch rest : List QueueItem)
    (h : queue ≠ [] ∧ st.results.length < opts.maxPages)
    (hb : queue.take opts.maxConcurrency = batch)
    (hr : queue.drop opts.maxConcurrency = rest)
    (d : CrawlerState × List (Except String (Option PageResult)))
    (hd : dispatchBatch opts env st batch = d)
    (p : CrawlerState × List QueueItem × List Event)
    (hp : processResults opts env d.1 rest events (batch.zip d.2) = p) :
    crawlLoop opts env hC st queue events = crawlLoop opts env hC p.1 p.2.1 p.2.2 := by
  rw [crawlLoop_step opts env hC st queue events h, hb, hr, hd, hp]

/-! ## Concrete fixtures

A three-page site: the seed `"s"` links to `"a"` and `"b"`, which are
leaf pages; every fetch succeeds with an HTML response.  Used to run
the model on closed inputs. -/

/-- A leaf page document: no links, no headings, no metadata. -/
def sampleDocLeaf : Doc := ⟨"t", none, none, fun _ => [], [], []⟩

/-- The seed page document: links to `"a"` and `"b"`. -/
def sampleDocSeed : Doc :=
  { titleText := "t", metaDescription := none, metaKeywords := none,
    headingTexts := fun _ => [],
    anchors := [⟨"a", "", none⟩, ⟨"b", "", none⟩], imgs := [] }

/-- A successful HTML response carrying the given document. -/
def sampleResp (doc : Doc) : Response := ⟨some "text/html", 200, "", none, doc, 0⟩

/-- The environment serving the three-page site; robots.txt fetches
fail, URL resolution is the identity, no regex ever matches. -/
def sampleEnv : Env :=
  { net := fun u _ => .ok (sampleResp (if u = "s" then sampleDocSeed else sampleDocLeaf))
    robotsFetch := fun _ => .error "no robots"
    robotsParse := fun _ _ => ⟨fun _ _ => .ok true⟩
    parse := fun _ => ⟨"http:", "h", "h"⟩
    resolve := fun href _ => some href
    regexTest := fun _ _ => false
    nowIso := "" }

/-- The constructor defaults of `WebCrawler` (lines 13–27). -/
def optsBase : Options :=
  { maxDepth := 3, maxPages := 100, maxConcurrency := 5, delay := 1000,
    timeout := 30000, followExternalLinks := false, respectRobotsTxt := true,
    userAgent := "WebCrawler-JS/1.0", allowedDomains := [], excludePatterns := [],
    includePatterns := [], maxRetries := 3 }

/-- Options exhibiting the page-bound overshoot: `maxPages := 2` with
`maxConcurrency := 2`. -/
def optsTwo : Options :=
  { optsBase with
    maxDepth := 1
    maxPages := 2
    maxConcurrency := 2
    respectRobotsTxt := false
    maxRetries := 0
    followExternalLinks := true }

/-- The fresh state of a newly constructed `WebCrawler`. -/
def st0 : CrawlerState := ⟨[], [], [], []⟩

/-- The `PageResult` produced for the seed page. -/
def pageS : PageResult := buildResult sampleEnv (sampleResp sampleDocSeed) "s" 0 none "text/html"

/-- The `PageResult` produced for child page `"a"`. -/
def pageA : PageResult := buildResult sampleEnv (sampleResp sampleDocLeaf) "a" 1 (some "s") "text/html"

/-- The `PageResult` produced for child page `"b"`. -/
def pageB : PageResult := buildResult sampleEnv (sampleResp sampleDocLeaf) "b" 1 (some "s") "text/html"

/-! ## State-shape lemmas for `crawlPage` and the batch phases -/

theorem setInsert_mem_of_mem {s : List String} {x y : String} (h : x ∈ s) :
    x ∈ setInsert s y := by
  unfold setInsert
  split
  · exact h
  · exact List.mem_cons_of_mem _ h

theorem crawlPage_visited_mono (opts : Options) (env : Env) (st : CrawlerState)
    (url : String) (depth : Nat) (parent : Option String) {x : String}
    (h : x ∈ st.visitedUrls) :
    x ∈ (crawlPage opts env st url depth parent).state.visitedUrls := by
  unfold crawlPage
  dsimp only
  repeat' split
  all_goals first
    | exact h
    | exact List.mem_cons_of_mem _ h

theorem crawlPage_visited_self (opts : Options) (env : Env) (st : CrawlerState)
    (url : String) (depth : Nat) (parent : Option String)
    (hv : url ∉ st.visitedUrls) :
    url ∈ (crawlPage opts env st url depth parent).state.visitedUrls := by
  unfold crawlPage
  dsimp only
  split
  · exact absurd (by assumption) hv
  · repeat' split
    all_goals exact List.mem_cons_self _ _

theorem crawlPage_visited_nodup (opts : Options) (env : Env) (st : CrawlerState)
    (url : String) (depth : Nat) (parent : Option String)
    (h : st.visitedUrls.Nodup) :
    (crawlPage opts env st url depth parent).state.visitedUrls.Nodup := by
  unfold crawlPage
  dsimp only
  split
  · exact h
  · repeat' split
    all_goals exact List.nodup_cons.mpr ⟨by assumption, h⟩

theorem crawlPage_failedUrls (opts : Options) (env : Env) (st : CrawlerState)
    (url : String) (depth : Nat) (parent : Option String) :
    (crawlPage opts env st url depth parent).state.failedUrls = st.failedUrls := by
  unfold crawlPage
  dsimp only
  repeat' split
  all_goals rfl

theorem crawlPage_depth (opts : Options) (env : Env) (st : CrawlerState)
    (url : String) (depth : Nat) (parent : Option String) (r : PageResult)
    (h : (crawlPage opts env st url depth parent).outcome = .ok (some r)) :
    r.depth = depth := by
  unfold crawlPage at h
  dsimp only at h
  revert h
  repeat' split
  all_goals intro h
  all_goals dsimp only at h
  all_goals try (simp only [Except.ok.injEq, Option.some.injEq] at h)
  all_goals first
    | exact Except.noConfusion h
    | exact Option.noConfusion h
    | (subst h; rfl)

theorem dispatchBatch_visited_mono (opts : Options) (env : Env) :
    ∀ (batch : List QueueItem) (st : CrawlerState) {x : String},
    x ∈ st.visitedUrls → x ∈ (dispatchBatch opts env st batch).1.visitedUrls := by
  intro batch
  induction batch with
  | nil => intro st x h; exact h
  | cons item rest ih =>
    intro st x h
    exact ih _ (crawlPage_visited_mono opts env st item.url item.depth item.parent h)

theorem dispatchBatch_visited_nodup (opts : Options) (env : Env) :
    ∀ (batch : List QueueItem) (st : CrawlerState),
    st.visitedUrls.Nodup → (dispatchBatch opts env st batch).1.visitedUrls.Nodup := by
  intro batch
  induction batch with
  | nil => intro st h; exact h
  | cons item rest ih =>
    intro st h
    exact ih _ (crawlPage_visited_nodup opts env st item.url item.depth item.parent h)

theorem dispatchBatch_failedUrls (opts : Options) (env : Env) :
    ∀ (batch : List QueueItem) (st : CrawlerState),
    (dispatchBatch opts env st batch).1.failedUrls = st.failedUrls := by
  intro batch
  induction batch with
  | nil => intro st; rfl
  | cons item rest ih =>
    intro st
    simp only [dispatchBatch]
    rw [ih, crawlPage_failedUrls]

/-- Each settled outcome of a dispatched batch belongs to the item it
was dispatched for: a fulfilled non-null outcome carries that item's
depth. -/
theorem dispatchBatch_depth (opts : Options) (env : Env) :
    ∀ (batch : List QueueItem) (st : CrawlerState) (item : QueueItem)
      (outcome : Except String (Option PageResult)) (r : PageResult),
    (item, outcome) ∈ batch.zip (dispatchBatch opts env st batch).2 →
    outcome = .ok (some r) → r.depth = item.depth := by
  intro batch
  induction batch with
  | nil => intro st item outcome r h; cases h
  | cons hd rest ih =>
    intro st item outcome r hmem hout
    simp only [dispatchBatch, List.zip_cons_cons, List.mem_cons] at hmem
    rcases hmem with heq | hmem
    · injection heq with h1 h2
      subst h1
      subst h2
      exact crawlPage_depth opts env st item.url item.depth item.parent r hout
    · exact ih _ item outcome r hmem hout

theorem processOutcome_visitedUrls (opts : Options) (env : Env) (st : CrawlerState)
    (queue : List QueueItem) (events : List Event) (item : QueueItem)
    (outcome : Except String (Option PageResult)) :
    (processOutcome opts env st queue events item outcome).1.visitedUrls =
      st.visitedUrls := by
  unfold processOutcome
  match outcome with
  | .ok (some r) => rfl
  | .ok none => rfl
  | .error e => rfl

theorem processOutcome_failed_mono (opts : Options) (env : Env) (st : CrawlerState)
    (queue : List QueueItem) (events : List Event) (item : QueueItem)
    (outcome : Except String (Option PageResult)) {x : String}
    (h : x ∈ st.failedUrls) :
    x ∈ (processOutcome opts env st queue events item outcome).1.failedUrls := by
  unfold processOutcome
  match outcome with
  | .ok (some r) => exact h
  | .ok none => exact h
  | .error e => exact setInsert_mem_of_mem h

/-- Results after processing one outcome: an old result, or the page
of the fulfilled outcome itself. -/
theorem processOutcome_results_mem (opts : Options) (env : Env) (st : CrawlerState)
    (queue : List QueueItem) (events : List Event) (item : QueueItem)
    (outcome : Except String (Option PageResult)) (r : PageResult)
    (h : r ∈ (processOutcome opts env st queue events item outcome).1.results) :
    r ∈ st.results ∨ outcome = .ok (some r) := by
  revert h
  unfold processOutcome
  match outcome with
  | .ok (some r') =>
    intro h
    simp only [List.mem_append, List.mem_singleton] at h
    rcases h with h | h
    · exact Or.inl h
    · exact Or.inr (by rw [h])
  | .ok none => exact fun h => Or.inl h
  | .error e => exact fun h => Or.inl h

/-- Queue items after processing one outcome: an item already queued,
or a link enqueued now — at depth `item.depth + 1`, only when
`item.depth < maxDepth`, and only for a URL in neither the visited
set nor the failed set. -/
theorem processOutcome_queue_mem (opts : Options) (env : Env) (st : CrawlerState)
    (queue : List QueueItem) (events : List Event) (item : QueueItem)
    (outcome : Except String (Option PageResult)) (qi : QueueItem)
    (h : qi ∈ (processOutcome opts env st queue events item outcome).2.1) :
    qi ∈ queue ∨
      (item.depth < opts.maxDepth ∧ qi.depth = item.depth + 1 ∧
       qi.url ∉ st.visitedUrls ∧ qi.url ∉ st.failedUrls) := by
  revert h
  unfold processOutcome
  match outcome with
  | .ok (some r') =>
    intro h
    dsimp only at h
    split at h
    · rw [List.mem_append] at h
      rcases h with h | h
      · exact Or.inl h
      · rw [List.mem_map] at h
        obtain ⟨u, hu, hqi⟩ := h
        rw [List.mem_filter] at hu
        have hcond := of_decide_eq_true hu.2
        refine Or.inr ⟨by assumption, ?_, ?_, ?_⟩
        · rw [← hqi]
        · rw [← hqi]; exact hcond.1
        · rw [← hqi]; exact hcond.2
    · exact Or.inl h
  | .ok none => exact fun h => Or.inl h
  | .error e => exact fun h => Or.inl h

theorem processResults_visitedUrls (opts : Options) (env : Env) :
    ∀ (l : List (QueueItem × Except String (Option PageResult)))
      (st : CrawlerState) (queue : List QueueItem) (events : List Event),
    (processResults opts env st queue events l).1.visitedUrls = st.visitedUrls := by
  intro l
  induction l with
  | nil => intro st queue events; rfl
  | cons p rest ih =>
    intro st queue events
    obtain ⟨item, outcome⟩ := p
    simp only [processResults]
    rw [ih, processOutcome_visitedUrls]

theorem processResults_failed_mono (opts : Options) (env : Env) :
    ∀ (l : List (QueueItem × Except String (Option PageResult)))
      (st : CrawlerState) (queue : List QueueItem) (events : List Event) {x : String},
    x ∈ st.failedUrls →
    x ∈ (processResults opts env st queue events l).1.failedUrls := by
  intro l
  induction l with
  | nil => intro st queue events x h; exact h
  | cons p rest ih =>
    intro st queue events x h
    obtain ⟨item, outcome⟩ := p
    exact ih _ _ _ (processOutcome_failed_mono opts env st queue events item outcome h)

theorem processResults_results_mem (opts : Options) (env : Env) :
    ∀ (l : List (QueueItem × Except String (Option PageResult)))
      (st : CrawlerState) (queue : List QueueItem) (events : List Event)
      (r : PageResult),
    r ∈ (processResults opts env st queue events l).1.results →
    r ∈ st.results ∨ ∃ p ∈ l, p.2 = .ok (some r) := by
  intro l
  induction l with
  | nil => intro st queue events r h; exact Or.inl h
  | cons p rest ih =>
    intro st queue events r h
    obtain ⟨item, outcome⟩ := p
    rcases ih _ _ _ r h with h' | ⟨p', hp', hout⟩
    · rcases processOutcome_results_mem opts env st queue events item outcome r h' with h'' | h''
      · exact Or.inl h''
      · exact Or.inr ⟨(item, outcome), List.mem_cons_self _ _, h''⟩
    · exact Or.inr ⟨p', List.mem_cons_of_mem _ hp', hout⟩

theorem processResults_queue_mem (opts : Options) (env : Env) :
    ∀ (l : List (QueueItem × Except String (Option PageResult)))
      (st : CrawlerState) (queue : List QueueItem) (events : List Event)
      (qi : QueueItem),
    qi ∈ (processResults opts env st queue events l).2.1 →
    qi ∈ queue ∨ ∃ p ∈ l,
      (p.1.depth < opts.maxDepth ∧ qi.depth = p.1.depth + 1 ∧
       qi.url ∉ st.visitedUrls ∧ qi.url ∉ st.failedUrls) := by
  intro l
  induction l with
  | nil => intro st queue events qi h; exact Or.inl h
  | cons p rest ih =>
    intro st queue events qi h
    obtain ⟨item, outcome⟩ := p
    rcases ih _ _ _ qi h with h' | ⟨p', hp', h1, h2, h3, h4⟩
    · rcases processOutcome_queue_mem opts env st queue events item outcome qi h' with h'' | h''
      · exact Or.inl h''
      · exact Or.inr ⟨(item, outcome), List.mem_cons_self _ _, h''⟩
    · refine Or.inr ⟨p', List.mem_cons_of_mem _ hp', h1, h2, ?_, ?_⟩
      · rw [processOutcome_visitedUrls opts env st queue events item outcome] at h3
        exact h3
      · intro hmem
        exact h4 (processOutcome_failed_mono opts env st queue events item outcome hmem)

/-! ## Run-level invariants of the crawl loop -/

theorem crawlLoop_results_prefix (opts : Options) (env : Env)
    (hC : 0 < opts.maxConcurrency) (st : CrawlerState) (queue : List QueueItem)
    (events : List Event) :
    st.results <+: (crawlLoop opts env hC st queue events).1.results := by
  induction st, queue, events using crawlLoop.induct opts env hC with
  | case1 st queue events h d p ih =>
    rw [crawlLoop_step opts env hC st queue events h]
    refine List.IsPrefix.trans ?_ ih
    obtain ⟨added, ha, -, -⟩ := processResults_spec opts env
      ((queue.take opts.maxConcurrency).zip
        (dispatchBatch opts env st (queue.take opts.maxConcurrency)).2)
      (dispatchBatch opts env st (queue.take opts.maxConcurrency)).1
      (queue.drop opts.maxConcurrency) events
    rw [ha, dispatchBatch_results]
    exact List.prefix_append _ _
  | case2 st queue events h =>
    rw [crawlLoop_stop opts env hC st queue events h]

theorem crawlLoop_visited_mono (opts : Options) (env : Env)
    (hC : 0 < opts.maxConcurrency) (st : CrawlerState) (queue : List QueueItem)
    (events : List Event) (x : String) :
    x ∈ st.visitedUrls → x ∈ (crawlLoop opts env hC st queue events).1.visitedUrls := by
  induction st, queue, events using crawlLoop.induct opts env hC with
  | case1 st queue events h d p ih =>
    intro hx
    rw [crawlLoop_step opts env hC st queue events h]
    apply ih
    rw [processResults_visitedUrls]
    exact dispatchBatch_visited_mono opts env _ st hx
  | case2 st queue events h =>
    intro hx
    rw [crawlLoop_stop opts env hC st queue events h]
    exact hx

theorem crawlLoop_failed_mono (opts : Options) (env : Env)
    (hC : 0 < opts.maxConcurrency) (st : CrawlerState) (queue : List QueueItem)
    (events : List Event) (x : String) :
    x ∈ st.failedUrls → x ∈ (crawlLoop opts env hC st queue events).1.failedUrls := by
  induction st, queue, events using crawlLoop.induct opts env hC with
  | case1 st queue events h d p ih =>
    intro hx
    rw [crawlLoop_step opts env hC st queue events h]
    apply ih
    apply processResults_failed_mono
    rw [dispatchBatch_failedUrls]
    exact hx
  | case2 st queue events h =>
    intro hx
    rw [crawlLoop_stop opts env hC st queue events h]
    exact hx

theorem crawlLoop_visited_nodup (opts : Options) (env : Env)
    (hC : 0 < opts.maxConcurrency) (st : CrawlerState) (queue : List QueueItem)
    (events : List Event) :
    st.visitedUrls.Nodup → (crawlLoop opts env hC st queue events).1.visitedUrls.Nodup := by
  induction st, queue, events using crawlLoop.induct opts env hC with
  | case1 st queue events h d p ih =>
    intro hnd
    rw [crawlLoop_step opts env hC st queue events h]
    apply ih
    rw [processResults_visitedUrls]
    exact dispatchBatch_visited_nodup opts env _ st hnd
  | case2 st queue events h =>
    intro hnd
    rw [crawlLoop_stop opts env hC st queue events h]
    exact hnd

theorem crawlLoop_results_bound (opts : Options) (env : Env)
    (hC : 0 < opts.maxConcurrency) (st : CrawlerState) (queue : List QueueItem)
    (events : List Event) :
    st.results.length ≤ opts.maxPages - 1 + opts.maxConcurrency →
    (crawlLoop opts env hC st queue events).1.results.length ≤
      opts.maxPages - 1 + opts.maxConcurrency := by
  induction st, queue, events using crawlLoop.induct opts env hC with
  | case1 st queue events h d p ih =>
    intro _
    rw [crawlLoop_step opts env hC st queue events h]
    apply ih
    have hlen := processResults_length_le opts env
      ((queue.take opts.maxConcurrency).zip
        (dispatchBatch opts env st (queue.take opts.maxConcurrency)).2)
      (dispatchBatch opts env st (queue.take opts.maxConcurrency)).1
      (queue.drop opts.maxConcurrency) events
    rw [dispatchBatch_results] at hlen
    have hzip : ((queue.take opts.maxConcurrency).zip
        (dispatchBatch opts env st (queue.take opts.maxConcurrency)).2).length ≤
        opts.maxConcurrency := by
      calc ((queue.take opts.maxConcurrency).zip
            (dispatchBatch opts env st (queue.take opts.maxConcurrency)).2).length
          ≤ (queue.take opts.maxConcurrency).length := by
            rw [List.length_zip]; omega
        _ ≤ opts.maxConcurrency := by
            rw [List.length_take]; omega
    have h2 := h.2
    have hpf : p.1.results.length ≤ st.results.length +
        ((queue.take opts.maxConcurrency).zip
          (dispatchBatch opts env st (queue.take opts.maxConcurrency)).2).length := hlen
    omega
  | case2 st queue events h =>
    intro h0
    rw [crawlLoop_stop opts env hC st queue events h]
    exact h0

theorem crawlLoop_depth_inv (opts : Options) (env : Env)
    (hC : 0 < opts.maxConcurrency) (st : CrawlerState) (queue : List QueueItem)
    (events : List Event) :
    (∀ r ∈ st.results, r.depth ≤ opts.maxDepth) →
    (∀ i ∈ queue, i.depth ≤ opts.maxDepth) →
    ∀ r ∈ (crawlLoop opts env hC st queue events).1.results,
      r.depth ≤ opts.maxDepth := by
  induction st, queue, events using crawlLoop.induct opts env hC with
  | case1 st queue events h d p ih =>
    intro hres hq
    rw [crawlLoop_step opts env hC st queue events h]
    apply ih
    · intro r hr
      rcases processResults_results_mem opts env _ _ _ _ r hr with hr' | ⟨p, hp, hout⟩
      · rw [dispatchBatch_results] at hr'
        exact hres r hr'
      · have hdep := dispatchBatch_depth opts env (queue.take opts.maxConcurrency) st
          p.1 p.2 r hp hout
        rw [hdep]
        exact hq p.1 (List.take_subset _ _ (List.of_mem_zip hp).1)
    · intro qi hqi
      rcases processResults_queue_mem opts env _ _ _ _ qi hqi with hqi' | ⟨p, hp, h1, h2, -, -⟩
      · exact hq qi (List.drop_subset _ _ hqi')
      · rw [h2]
        omega
  | case2 st queue events h =>
    intro hres hq
    rw [crawlLoop_stop opts env hC st queue events h]
    exact hres

/-! ## Further fixtures for witnesses -/

/-- A run with `maxPages := 1`, so a pre-loaded instance stops at once. -/
def optsOne : Options := { optsBase with maxPages := 1 }

/-- Retry options: `maxRetries := 2`, robots checking off. -/
def optsRetry : Options :=
  { optsBase with
    maxRetries := 2
    respectRobotsTxt := false }

/-- An environment whose every page fetch fails. -/
def envFail : Env :=
  { net := fun _ _ => .error "boom"
    robotsFetch := fun _ => .error "no robots"
    robotsParse := fun _ _ => ⟨fun _ _ => .ok true⟩
    parse := fun _ => ⟨"http:", "h", "h"⟩
    resolve := fun _ _ => none
    regexTest := fun _ _ => false
    nowIso := "" }

/-- A state that has already visited `"s"` (as after a first run). -/
def stV : CrawlerState := ⟨["s"], [], [], []⟩

/-- A state already holding one result (as after a first run). -/
def stPre : CrawlerState := ⟨[], [], [pageS], []⟩

/-- A document with a whitespace-only title and no metadata. -/
def docEmpty : Doc := ⟨"  ", none, none, fun _ => [], [], []⟩

/-- An HTML response carrying `docEmpty`. -/
def respEmpty : Response := ⟨some "text/html", 200, "", none, docEmpty, 5⟩

/-- An environment serving `respEmpty` for every fetch. -/
def envEmpty : Env :=
  { net := fun _ _ => .ok respEmpty
    robotsFetch := fun _ => .error "no robots"
    robotsParse := fun _ _ => ⟨fun _ _ => .ok true⟩
    parse := fun _ => ⟨"http:", "h", "h"⟩
    resolve := fun _ _ => none
    regexTest := fun _ _ => false
    nowIso := "" }

/-- A rule set whose own check throws. -/
def rulesBad : RobotsRules := ⟨fun _ _ => .error "boom"⟩

/-- A robots cache holding `rulesBad` for host `h`. -/
def cacheBad : List (String × Option RobotsRules) := [("http://h/robots.txt", some rulesBad)]

/-- Filter options: same-host only, excluding pattern `"adm"`. -/
def optsFilter : Options := { optsBase with excludePatterns := ["adm"] }

/-- Environment for filter tests: `"ext"` parses to a foreign host,
`"ftp"` to a non-HTTP scheme, everything else to host `h`; the regex
`"adm"` matches exactly the URL `"bad-adm"`. -/
def envFilter : Env :=
  { net := fun _ _ => .error "unused"
    robotsFetch := fun _ => .error "no robots"
    robotsParse := fun _ _ => ⟨fun _ _ => .ok true⟩
    parse := fun u =>
      if u = "ext" then ⟨"https:", "x", "x"⟩
      else if u = "ftp" then ⟨"ftp:", "h", "h"⟩
      else ⟨"http:", "h", "h"⟩
    resolve := fun _ _ => none
    regexTest := fun p u => decide (p = "adm" ∧ u = "bad-adm")
    nowIso := "" }

/-- Links discovered on a filter-test page: one good URL (twice), one
external, one non-HTTP, one matching the exclude pattern. -/
def linksFilter : List LinkOut :=
  [⟨"good", "", ""⟩, ⟨"ext", "", ""⟩, ⟨"ftp", "", ""⟩, ⟨"bad-adm", "", ""⟩, ⟨"good", "", ""⟩]

/-- Under `url ∉ visited` and a passing (or disabled) robots check,
`crawlPage` reaches its retry loop: its value is determined by
`fetchRetry` over the page's fetches, for some updated state. -/
theorem crawlPage_reaches_fetch (opts : Options) (env : Env) (st : CrawlerState)
    (url : String) (depth : Nat) (parent : Option String)
    (hv : url ∉ st.visitedUrls)
    (hrob : opts.respectRobotsTxt = false ∨
      (isAllowedByRobots env opts st.robotsCache url).2 = true) :
    ∃ stc, crawlPage opts env st url depth parent =
      (match (fetchRetry (env.net url) opts.maxRetries 0).2.2 with
       | .error e => ⟨stc, .error e,
           (fetchRetry (env.net url) opts.maxRetries 0).1,
           (fetchRetry (env.net url) opts.maxRetries 0).2.1⟩
       | .ok response =>
         if strContains (response.contentTypeHeader.getD "") "text/html" = false then
           ⟨stc, .ok none,
            (fetchRetry (env.net url) opts.maxRetries 0).1,
            (fetchRetry (env.net url) opts.maxRetries 0).2.1⟩
         else
           ⟨stc, .ok (some (buildResult env response url depth parent
              (response.contentTypeHeader.getD ""))),
            (fetchRetry (env.net url) opts.maxRetries 0).1,
            (fetchRetry (env.net url) opts.maxRetries 0).2.1⟩) := by
  by_cases hR : opts.respectRobotsTxt = true
  · rcases hrob with hrob | hrob
    · rw [hrob] at hR; cases hR
    · refine ⟨{ st with
          visitedUrls := url :: st.visitedUrls
          robotsCache := (isAllowedByRobots env opts st.robotsCache url).1 }, ?_⟩
      unfold crawlPage
      rw [if_neg hv]
      dsimp only
      rw [if_pos hR]
      dsimp only
      rw [if_neg (by rw [hrob]; simp)]
  · refine ⟨{ st with visitedUrls := url :: st.visitedUrls }, ?_⟩
    unfold crawlPage
    rw [if_neg hv]
    dsimp only
    rw [if_neg hR]
    dsimp only
    rw [if_neg (by simp)]

/-- C2.  A URL whose fetch fails on every attempt is fetched exactly
`maxRetries + 1` times by `crawlPage`; the loop sleeps `1000 * k`
milliseconds after the `k`-th failed attempt for `k = 1 … maxRetries`,
and the final failure is rethrown to the caller (a rejected promise)
rather than returned as a result. -/
theorem claim_C2_retry_exhaustion (opts : Options) (env : Env) (st : CrawlerState)
    (url : String) (depth : Nat) (parent : Option String) (f : Nat → String)
    (hv : url ∉ st.visitedUrls)
    (hrob : opts.respectRobotsTxt = false ∨
      (isAllowedByRobots env opts st.robotsCache url).2 = true)
    (hf : ∀ k, env.net url k = .error (f k)) :
    (crawlPage opts env st url depth parent).attempts = opts.maxRetries + 1 ∧
    (crawlPage opts env st url depth parent).sleeps =
      (List.range opts.maxRetries).map (fun k => 1000 * (k + 1)) ∧
    (crawlPage opts env st url depth parent).outcome = .error (f opts.maxRetries) := by
  obtain ⟨stc, heq⟩ := crawlPage_reaches_fetch opts env st url depth parent hv hrob
  rw [heq, fetchRetry_all_fail (env.net url) f hf opts.maxRetries 0 (Nat.zero_le _)]
  refine ⟨by simp, ?_, rfl⟩
  dsimp only
  rw [Nat.sub_zero]
  exact List.map_congr_left (fun k _ => by ring)

/-- C2 witness: with `maxRetries = 2` and an always-failing transport,
the page is attempted 3 times, with backoff sleeps of 1000 ms and
2000 ms, and `crawlPage` rejects with the final error. -/
theorem claim_C2_retry_exhaustion_witness :
    (crawlPage optsRetry envFail st0 "u" 0 none).attempts = 3 ∧
    (crawlPage optsRetry envFail st0 "u" 0 none).sleeps = [1000, 2000] ∧
    (crawlPage optsRetry envFail st0 "u" 0 none).outcome = .error "boom" := by
  have h := claim_C2_retry_exhaustion optsRetry envFail st0 "u" 0 none
    (fun _ => "boom") (by decide) (Or.inl rfl) (fun k => rfl)
  refine ⟨h.1, ?_, h.2.2⟩
  rw [h.2.1]
  decide

/-- C1 counterexample.  With `maxPages = 2` and `maxConcurrency = 2`,
crawling a seed that links to two children yields 3 results: the loop
checks `results.length < maxPages` only between batches, and every
fulfilled result of the final batch is pushed, so the results list
exceeds `maxPages` (the claimed invariant `results.length ≤ maxPages`
fails). -/
theorem claim_C1_counterexample :
    (crawl optsTwo sampleEnv (by decide) st0 "s" 0).state.results.length = 3 ∧
    optsTwo.maxPages = 2 := by
  refine ⟨?_, rfl⟩
  rw [crawl]
  dsimp only
  have hcp_s : crawlPage optsTwo sampleEnv st0 "s" 0 none =
      ⟨⟨["s"], [], [], []⟩, .ok (some pageS), 1, []⟩ := by
    rw [crawlPage_success_robotsOff optsTwo sampleEnv st0 "s" 0 none
      (sampleResp sampleDocSeed) (by decide) rfl rfl (by decide)]
    rfl
  have hd1 : dispatchBatch optsTwo sampleEnv st0 [⟨"s", 0, none⟩] =
      (⟨["s"], [], [], []⟩, [.ok (some pageS)]) := by
    simp only [dispatchBatch]
    rw [hcp_s]
  have hp1 : processResults optsTwo sampleEnv ⟨["s"], [], [], []⟩ [] []
      [(⟨"s", 0, none⟩, .ok (some pageS))] =
      (⟨["s"], [], [pageS], []⟩,
       [⟨"a", 1, some "s"⟩, ⟨"b", 1, some "s"⟩],
       [Event.page pageS]) := by
    rfl
  rw [crawlLoop_step_batch optsTwo sampleEnv _ st0 _ _ [⟨"s", 0, none⟩] []
    (by decide) (by decide) (by decide) _ hd1 _ hp1]
  have hcp_a : crawlPage optsTwo sampleEnv ⟨["s"], [], [pageS], []⟩ "a" 1 (some "s") =
      ⟨⟨["a", "s"], [], [pageS], []⟩, .ok (some pageA), 1, []⟩ := by
    rw [crawlPage_success_robotsOff optsTwo sampleEnv _ "a" 1 (some "s")
      (sampleResp sampleDocLeaf) (by decide) rfl rfl (by decide)]
    rfl
  have hcp_b : crawlPage optsTwo sampleEnv ⟨["a", "s"], [], [pageS], []⟩ "b" 1 (some "s") =
      ⟨⟨["b", "a", "s"], [], [pageS], []⟩, .ok (some pageB), 1, []⟩ := by
    rw [crawlPage_success_robotsOff optsTwo sampleEnv _ "b" 1 (some "s")
      (sampleResp sampleDocLeaf) (by decide) rfl rfl (by decide)]
    rfl
  have hd2 : dispatchBatch optsTwo sampleEnv ⟨["s"], [], [pageS], []⟩
      [⟨"a", 1, some "s"⟩, ⟨"b", 1, some "s"⟩] =
      (⟨["b", "a", "s"], [], [pageS], []⟩, [.ok (some pageA), .ok (some pageB)]) := by
    simp only [dispatchBatch]
    rw [hcp_a]
    dsimp only
    rw [hcp_b]
  have hp2 : processResults optsTwo sampleEnv ⟨["b", "a", "s"], [], [pageS], []⟩ []
      [Event.page pageS]
      [(⟨"a", 1, some "s"⟩, .ok (some pageA)), (⟨"b", 1, some "s"⟩, .ok (some pageB))] =
      (⟨["b", "a", "s"], [], [pageS, pageA, pageB], []⟩, [],
       [Event.page pageS, Event.page pageA, Event.page pageB]) := by
    rfl
  rw [crawlLoop_step_batch optsTwo sampleEnv _ _ _ _
    [⟨"a", 1, some "s"⟩, ⟨"b", 1, some "s"⟩] []
    (by decide) (by decide) (by decide) _ hd2 _ hp2]
  rw [crawlLoop_stop _ _ _ _ _ _ (by decide)]
  rfl

/-- C1 (amended).  `results.length ≤ maxPages` does not hold at every
point; what holds is: a run starting with an empty results list never
exceeds `maxPages - 1 + maxConcurrency` results (the loop only enters
a batch while `results.length < maxPages` and a batch appends at most
`maxConcurrency` results), and once `results.length ≥ maxPages` the
loop dispatches no further batch. -/
theorem claim_C1_amended (opts : Options) (env : Env) (hC : 0 < opts.maxConcurrency)
    (st : CrawlerState) (startUrl : String) (t : Nat)
    (hstart : st.results = []) :
    (crawl opts env hC st startUrl t).state.results.length ≤
      opts.maxPages - 1 + opts.maxConcurrency ∧
    ∀ (st' : CrawlerState) (queue : List QueueItem) (events : List Event),
      opts.maxPages ≤ st'.results.length →
      crawlLoop opts env hC st' queue events = (st', events) := by
  constructor
  · refine crawlLoop_results_bound opts env hC st [⟨startUrl, 0, none⟩] [] ?_
    rw [hstart]
    simp
  · intro st' queue events hge
    refine crawlLoop_stop opts env hC st' queue events ?_
    rintro ⟨-, hlt⟩
    omega

/-- C1 amended witness: the bound and the stop condition at the
concrete overshoot run (`maxPages = 2`, `maxConcurrency = 2`, so the
bound is 3), and a pre-loaded state with 2 ≥ maxPages results is
returned untouched. -/
theorem claim_C1_amended_witness :
    (crawl optsTwo sampleEnv (by decide) st0 "s" 0).state.results.length ≤
      optsTwo.maxPages - 1 + optsTwo.maxConcurrency ∧
    crawlLoop optsTwo sampleEnv (by decide) ⟨[], [], [pageS, pageA], []⟩
      [⟨"x", 0, none⟩] [] = (⟨[], [], [pageS, pageA], []⟩, []) :=
  ⟨(claim_C1_amended optsTwo sampleEnv (by decide) st0 "s" 0 rfl).1,
   (claim_C1_amended optsTwo sampleEnv (by decide) st0 "s" 0 rfl).2
     ⟨[], [], [pageS, pageA], []⟩ [⟨"x", 0, none⟩] [] (by decide)⟩

/-- C3.  Every `PageResult` of a crawl run (seeded at depth 0, over an
instance whose accumulated results already satisfy the bound) has
`depth ≤ maxDepth`; and a processing step enqueues new frontier items
only for a page of depth `< maxDepth`, at depth one greater. -/
theorem claim_C3_depth_bound (opts : Options) (env : Env)
    (hC : 0 < opts.maxConcurrency) (st : CrawlerState) (startUrl : String) (t : Nat)
    (hres : ∀ r ∈ st.results, r.depth ≤ opts.maxDepth) :
    (∀ r ∈ (crawl opts env hC st startUrl t).state.results, r.depth ≤ opts.maxDepth) ∧
    (∀ (st' : CrawlerState) (queue : List QueueItem) (events : List Event)
       (item qi : QueueItem) (outcome : Except String (Option PageResult)),
      qi ∈ (processOutcome opts env st' queue events item outcome).2.1 →
      qi ∈ queue ∨ (item.depth < opts.maxDepth ∧ qi.depth = item.depth + 1)) := by
  constructor
  · intro r hr
    refine crawlLoop_depth_inv opts env hC st [⟨startUrl, 0, none⟩] [] hres ?_ r hr
    intro i hi
    rw [List.mem_singleton] at hi
    subst hi
    exact Nat.zero_le _
  · intro st' queue events item qi outcome hqi
    rcases processOutcome_queue_mem opts env st' queue events item outcome qi hqi with
      h | ⟨h1, h2, -, -⟩
    · exact Or.inl h
    · exact Or.inr ⟨h1, h2⟩

/-- C3 witness: the accumulated result of a pre-loaded instance that
immediately stops (its one result, the seed page at depth 0) respects
the depth bound. -/
theorem claim_C3_depth_bound_witness : pageS.depth ≤ optsOne.maxDepth := by
  have h := claim_C3_depth_bound optsOne sampleEnv (by decide) stPre "x" 0
    (by intro r hr; rw [show stPre.results = [pageS] from rfl, List.mem_singleton] at hr
        subst hr; decide)
  refine h.1 pageS ?_
  rw [crawl]
  dsimp only
  rw [crawlLoop_stop _ _ _ _ _ _ (by decide)]
  exact List.mem_cons_self _ _

/-- C4.  A URL is added to the visited set before any fetch: a call
for an already-visited URL returns `null` at once with no fetch
attempt and no state change; a call for a new URL leaves the URL in
the visited set whatever the fetch outcome; the scheduler treats a
fulfilled `null` as neither success nor failure (no result, no event,
no failure record); and a crawl run preserves distinctness of the
visited set, so no URL is ever added twice. -/
theorem claim_C4_visited_once (opts : Options) (env : Env)
    (hC : 0 < opts.maxConcurrency) :
    (∀ (st : CrawlerState) (url : String) (depth : Nat) (parent : Option String),
      url ∈ st.visitedUrls →
      crawlPage opts env st url depth parent = ⟨st, .ok none, 0, []⟩) ∧
    (∀ (st : CrawlerState) (url : String) (depth : Nat) (parent : Option String),
      url ∉ st.visitedUrls →
      url ∈ (crawlPage opts env st url depth parent).state.visitedUrls) ∧
    (∀ (st : CrawlerState) (queue : List QueueItem) (events : List Event)
       (item : QueueItem),
      processOutcome opts env st queue events item (.ok none) = (st, queue, events)) ∧
    (∀ (st : CrawlerState) (startUrl : String) (t : Nat),
      st.visitedUrls.Nodup →
      (crawl opts env hC st startUrl t).state.visitedUrls.Nodup) := by
  refine ⟨?_, ?_, ?_, ?_⟩
  · exact fun st url depth parent h => crawlPage_visited opts env st url depth parent h
  · exact fun st url depth parent h => crawlPage_visited_self opts env st url depth parent h
  · intro st queue events item
    rfl
  · exact fun st startUrl t h =>
      crawlLoop_visited_nodup opts env hC st [⟨startUrl, 0, none⟩] [] h

/-- C4 witness: a second call for the visited URL `"s"` is a no-op
returning `null` with zero fetch attempts; a fresh URL lands in the
visited set; a `null` outcome changes nothing; a run over a visited
seed keeps the visited set duplicate-free. -/
theorem claim_C4_visited_once_witness :
    crawlPage optsBase sampleEnv stV "s" 0 none = ⟨stV, .ok none, 0, []⟩ ∧
    "a" ∈ (crawlPage optsBase sampleEnv st0 "a" 0 none).state.visitedUrls ∧
    processOutcome optsBase sampleEnv st0 [] [] ⟨"x", 0, none⟩ (.ok none) = (st0, [], []) ∧
    (crawl optsBase sampleEnv (by decide) stV "s" 0).state.visitedUrls.Nodup := by
  have h := claim_C4_visited_once optsBase sampleEnv (by decide)
  exact ⟨h.1 stV "s" 0 none (by decide), h.2.1 st0 "a" 0 none (by decide),
         h.2.2.1 st0 [] [] ⟨"x", 0, none⟩, h.2.2.2 stV "s" 0 (by decide)⟩

theorem filterLink_some (env : Env) (opts : Options) (baseUrlObj : UrlObj)
    (link : LinkOut) (u : String)
    (h : filterLink env opts baseUrlObj link = some u) :
    u = link.url ∧
    ((env.parse link.url).protocol = "http:" ∨ (env.parse link.url).protocol = "https:") ∧
    (opts.followExternalLinks = false →
      (env.parse link.url).hostname = baseUrlObj.hostname) ∧
    (∀ pattern ∈ opts.excludePatterns, env.regexTest pattern link.url = false) := by
  unfold filterLink at h
  dsimp only at h
  split at h
  · exact Option.noConfusion h
  next hprot =>
    split at h
    · exact Option.noConfusion h
    next hhost =>
      split at h
      · exact Option.noConfusion h
      next hdom =>
        split at h
        · exact Option.noConfusion h
        next hexc =>
          split at h
          · exact Option.noConfusion h
          next hinc =>
            injection h with hu
            subst hu
            refine ⟨rfl, by simpa using not_not.mp hprot, ?_, ?_⟩
            · intro hfe
              by_contra hne
              exact hhost ⟨hfe, hne⟩
            · intro pattern hmem
              simp only [List.any_eq_true, not_exists, not_and,
                Bool.not_eq_true] at hexc
              exact hexc pattern hmem

/-- C5.  The URL filter returns a duplicate-free list in which every
URL has scheme `http` or `https`, shares the base URL's host whenever
`followExternalLinks` is false, and matches no `excludePatterns`
regex. -/
theorem claim_C5_filter (env : Env) (opts : Options) (links : List LinkOut)
    (baseUrl : String) :
    (extractAndFilterUrls env opts links baseUrl).Nodup ∧
    ∀ u ∈ extractAndFilterUrls env opts links baseUrl,
      ((env.parse u).protocol = "http:" ∨ (env.parse u).protocol = "https:") ∧
      (opts.followExternalLinks = false →
        (env.parse u).hostname = (env.parse baseUrl).hostname) ∧
      (∀ pattern ∈ opts.excludePatterns, env.regexTest pattern u = false) := by
  constructor
  · exact nodup_dedupFirst _
  · intro u hu
    rw [extractAndFilterUrls, mem_dedupFirst, List.mem_filterMap] at hu
    obtain ⟨link, hlink, hfl⟩ := hu
    obtain ⟨hequ, hp, hh, he⟩ := filterLink_some env opts (env.parse baseUrl) link u hfl
    subst hequ
    exact ⟨hp, hh, he⟩

/-- C5 witness: on a page linking to a good same-host URL (twice), an
external host, an `ftp` URL and an excluded URL, the filter output is
duplicate-free, and the surviving URL `"good"` has an HTTP(S) scheme,
the base host, and no exclude-pattern match. -/
theorem claim_C5_filter_witness :
    (extractAndFilterUrls envFilter optsFilter linksFilter "base").Nodup ∧
    ((envFilter.parse "good").protocol = "http:" ∨
      (envFilter.parse "good").protocol = "https:") ∧
    (envFilter.parse "good").hostname = (envFilter.parse "base").hostname ∧
    envFilter.regexTest "adm" "good" = false := by
  have h := claim_C5_filter envFilter optsFilter linksFilter "base"
  have hm : "good" ∈ extractAndFilterUrls envFilter optsFilter linksFilter "base" := by
    decide
  exact ⟨h.1, (h.2 "good" hm).1, (h.2 "good" hm).2.1 rfl,
         (h.2 "good" hm).2.2 "adm" (by decide)⟩

/-- The robots.txt URL derived for a page URL,
`protocol + "//" + host + "/robots.txt"` (line 308). -/
def robotsUrlOf (env : Env) (url : String) : String :=
  (env.parse url).protocol ++ "//" ++ (env.parse url).host ++ "/robots.txt"

/-- C6.  The robots check never surfaces a failure: when the host is
uncached and the robots.txt fetch fails, the "allow all" sentinel
(`null`, here `none`) is cached for that host and the check returns
`true`; and when the cached rule set's own `isAllowed` call throws,
the outer catch also returns `true`.  (In the model the check is a
total function, so it cannot raise at all.) -/
theorem claim_C6_robots_never_fatal (env : Env) (opts : Options)
    (cache : List (String × Option RobotsRules)) (url : String) :
    (∀ e, cache.lookup (robotsUrlOf env url) = none →
      env.robotsFetch (robotsUrlOf env url) = .error e →
      isAllowedByRobots env opts cache url =
        ((robotsUrlOf env url, none) :: cache, true)) ∧
    (∀ (rules : RobotsRules) (err : String),
      cache.lookup (robotsUrlOf env url) = some (some rules) →
      rules.isAllowed url opts.userAgent = .error err →
      (isAllowedByRobots env opts cache url).2 = true) := by
  constructor
  · intro e hnone hfetch
    unfold robotsUrlOf at hnone hfetch
    unfold isAllowedByRobots robotsUrlOf
    dsimp only
    rw [hnone]
    simp only [Option.isSome_none, Bool.false_eq_true, if_false]
    rw [hfetch]
    simp [List.lookup]
  · intro rules err hsome hthrow
    unfold robotsUrlOf at hsome
    unfold isAllowedByRobots
    dsimp only
    have hc : (if (List.lookup ((env.parse url).protocol ++ "//" ++ (env.parse url).host
          ++ "/robots.txt") cache).isSome = true then cache
        else match env.robotsFetch ((env.parse url).protocol ++ "//" ++ (env.parse url).host
              ++ "/robots.txt") with
          | .ok body => ((env.parse url).protocol ++ "//" ++ (env.parse url).host
              ++ "/robots.txt",
              some (env.robotsParse ((env.parse url).protocol ++ "//" ++ (env.parse url).host
                ++ "/robots.txt") body)) :: cache
          | .error _ => ((env.parse url).protocol ++ "//" ++ (env.parse url).host
              ++ "/robots.txt", none) :: cache) = cache := by
      rw [hsome]
      rfl
    rw [hc]
    split
    next robots heq =>
      rw [hsome] at heq
      injection heq with h'
      injection h' with h''
      subst h''
      rw [hthrow]
    next => rfl
    next => rfl

/-- C6 witness: an empty cache plus a failing robots fetch yields the
cached sentinel and `true`; a cached rule set that throws during its
check also yields `true`. -/
theorem claim_C6_robots_never_fatal_witness :
    isAllowedByRobots envFail optsBase [] "u" =
      ((robotsUrlOf envFail "u", none) :: [], true) ∧
    (isAllowedByRobots envFail optsBase cacheBad "u").2 = true := by
  have h1 := claim_C6_robots_never_fatal envFail optsBase [] "u"
  have h2 := claim_C6_robots_never_fatal envFail optsBase cacheBad "u"
  exact ⟨h1.1 "no robots" rfl rfl, h2.2 rulesBad "boom" rfl rfl⟩

/-- C7.  An individual page's permanent failure never aborts the run:
processing a rejected outcome only records the URL in the failed set
and emits an `error` event with URL and cause (the loop continues); a
processing step never enqueues a URL that is in the failed set; the
failed set persists for the rest of the run; and every `crawl` call
ends with the `complete` event carrying the summary. -/
theorem claim_C7_failure_isolated (opts : Options) (env : Env)
    (hC : 0 < opts.maxConcurrency) :
    (∀ (st : CrawlerState) (queue : List QueueItem) (events : List Event)
       (item : QueueItem) (e : String),
      processOutcome opts env st queue events item (.error e) =
        ({ st with failedUrls := setInsert st.failedUrls item.url }, queue,
         events ++ [Event.pageError item.url e])) ∧
    (∀ (st : CrawlerState) (queue : List QueueItem) (events : List Event)
       (item : QueueItem) (outcome : Except String (Option PageResult))
       (qi : QueueItem),
      qi ∈ (processOutcome opts env st queue events item outcome).2.1 →
      qi ∈ queue ∨ qi.url ∉ st.failedUrls) ∧
    (∀ (st : CrawlerState) (startUrl : String) (t : Nat) (x : String),
      x ∈ st.failedUrls → x ∈ (crawl opts env hC st startUrl t).state.failedUrls) ∧
    (∀ (st : CrawlerState) (startUrl : String) (t : Nat),
      (crawl opts env hC st startUrl t).events.getLast? = some Event.complete) := by
  refine ⟨?_, ?_, ?_, ?_⟩
  · intro st queue events item e
    rfl
  · intro st queue events item outcome qi hqi
    rcases processOutcome_queue_mem opts env st queue events item outcome qi hqi with
      h | ⟨-, -, -, h4⟩
    · exact Or.inl h
    · exact Or.inr h4
  · exact fun st startUrl t x h =>
      crawlLoop_failed_mono opts env hC st [⟨startUrl, 0, none⟩] [] x h
  · intro st startUrl t
    rw [crawl]
    dsimp only
    exact List.getLast?_concat _

/-- C7 witness: a rejected page is recorded and reported; a freshly
enqueued item's URL is outside the failed set; a previously failed URL
is still failed after a full run; and a run emits `complete` last. -/
theorem claim_C7_failure_isolated_witness :
    processOutcome optsBase sampleEnv st0 [] [] ⟨"f", 0, none⟩ (.error "boom") =
      ({ st0 with failedUrls := setInsert st0.failedUrls "f" }, [],
       [Event.pageError "f" "boom"]) ∧
    ((⟨"q", 1, none⟩ : QueueItem) ∈ ([⟨"q", 1, none⟩] : List QueueItem) ∨
      (⟨"q", 1, none⟩ : QueueItem).url ∉ st0.failedUrls) ∧
    "f" ∈ (crawl optsBase sampleEnv (by decide) ⟨[], ["f"], [], []⟩ "x" 0).state.failedUrls ∧
    (crawl optsBase sampleEnv (by decide) st0 "s" 0).events.getLast? =
      some Event.complete := by
  have h := claim_C7_failure_isolated optsBase sampleEnv (by decide)
  exact ⟨h.1 st0 [] [] ⟨"f", 0, none⟩ "boom",
         h.2.1 st0 [⟨"q", 1, none⟩] [] ⟨"p", 0, none⟩ (.ok none) ⟨"q", 1, none⟩ (by decide),
         h.2.2.1 ⟨[], ["f"], [], []⟩ "x" 0 "f" (by decide),
         h.2.2.2 st0 "s" 0⟩

/-- C8.  The summary is computed over the final state exactly as
`mkSummary` does: `totalPages` is the length of the results list,
`failedPages` the size of the failed set, `totalTime` the elapsed
time, and `averageTime` is `totalTime / totalPages` (true division),
defined as 0 when there are no results; in particular 4 results over
2000 ms give an average of 500. -/
theorem claim_C8_summary (opts : Options) (env : Env)
    (hC : 0 < opts.maxConcurrency) (st : CrawlerState) (startUrl : String) (t : Nat) :
    (crawl opts env hC st startUrl t).summary =
      mkSummary (crawl opts env hC st startUrl t).state.results
        (crawl opts env hC st startUrl t).state.failedUrls.length t ∧
    (∀ (results : List PageResult) (failedCount elapsed : Nat),
      (mkSummary results failedCount elapsed).totalPages = results.length ∧
      (mkSummary results failedCount elapsed).failedPages = failedCount ∧
      (mkSummary results failedCount elapsed).totalTime = elapsed ∧
      (results.length = 0 → (mkSummary results failedCount elapsed).averageTime = 0) ∧
      (0 < results.length → (mkSummary results failedCount elapsed).averageTime =
        (elapsed : ℚ) / (results.length : ℚ))) ∧
    (∀ (results : List PageResult) (failedCount : Nat),
      results.length = 4 → (mkSummary results failedCount 2000).averageTime = 500) := by
  refine ⟨rfl, ?_, ?_⟩
  · intro results failedCount elapsed
    refine ⟨rfl, rfl, rfl, ?_, ?_⟩
    · intro h0
      simp [mkSummary, h0]
    · intro hpos
      simp [mkSummary, hpos]
  · intro results failedCount h4
    simp [mkSummary, h4]
    norm_num

/-- C8 witness: a concrete run's summary agrees with `mkSummary`; 4
results over 2000 ms average to 500; 0 results average to 0. -/
theorem claim_C8_summary_witness :
    (crawl optsOne sampleEnv (by decide) stPre "x" 2000).summary =
      mkSummary (crawl optsOne sampleEnv (by decide) stPre "x" 2000).state.results
        (crawl optsOne sampleEnv (by decide) stPre "x" 2000).state.failedUrls.length 2000 ∧
    (mkSummary [pageS, pageS, pageS, pageS] 0 2000).averageTime = 500 ∧
    (mkSummary [] 0 2000).averageTime = 0 := by
  have h := claim_C8_summary optsOne sampleEnv (by decide) stPre "x" 2000
  exact ⟨h.1, h.2.2 [pageS, pageS, pageS, pageS] 0 (by decide),
         (h.2.1 [] 0 2000).2.2.2.1 rfl⟩

/-- C9.  A successful HTML fetch produces its `PageResult` through
`buildResult`, whose fallbacks are fixed: the literal `'No title'`
when the document's trimmed title text is empty, the empty string when
the description or keywords meta tag is absent, and a headings map
whose keys are always exactly `h1` … `h6`, with an empty list for a
level with no headings. -/
theorem claim_C9_metadata_fallbacks (opts : Options) (env : Env) (st : CrawlerState)
    (url : String) (depth : Nat) (parent : Option String) (resp : Response)
    (hv : url ∉ st.visitedUrls)
    (hrob : opts.respectRobotsTxt = false ∨
      (isAllowedByRobots env opts st.robotsCache url).2 = true)
    (hnet : env.net url 0 = .ok resp)
    (hct : strContains (resp.contentTypeHeader.getD "") "text/html" = true) :
    (crawlPage opts env st url depth parent).outcome =
      .ok (some (buildResult env resp url depth parent
        (resp.contentTypeHeader.getD ""))) ∧
    ∀ (env' : Env) (resp' : Response) (url' : String) (depth' : Nat)
      (parent' : Option String) (ct' : String),
      (jsTrim resp'.doc.titleText = "" →
        (buildResult env' resp' url' depth' parent' ct').title = "No title") ∧
      (resp'.doc.metaDescription = none →
        (buildResult env' resp' url' depth' parent' ct').description = "") ∧
      (resp'.doc.metaKeywords = none →
        (buildResult env' resp' url' depth' parent' ct').keywords = "") ∧
      (buildResult env' resp' url' depth' parent' ct').headings.map Prod.fst =
        headingTags ∧
      (∀ tag ∈ headingTags, resp'.doc.headingTexts tag = [] →
        (tag, ([] : List String)) ∈
          (buildResult env' resp' url' depth' parent' ct').headings) := by
  constructor
  · obtain ⟨stc, heq⟩ := crawlPage_reaches_fetch opts env st url depth parent hv hrob
    rw [heq, fetchRetry_first_ok _ _ _ hnet]
    split
    next e heqq =>
      dsimp only at heqq
      exact Except.noConfusion heqq
    next response heqq =>
      dsimp only at heqq
      injection heqq with h'
      subst h'
      rw [if_neg (by rw [hct]; simp)]
  · intro env' resp' url' depth' parent' ct'
    refine ⟨?_, ?_, ?_, ?_, ?_⟩
    · intro h0
      simp [buildResult, h0]
    · intro h0
      simp [buildResult, h0]
    · intro h0
      simp [buildResult, h0]
    · show (buildResult env' resp' url' depth' parent' ct').headings.map Prod.fst =
        headingTags
      unfold buildResult extractHeadings
      dsimp only
      rw [List.map_map]
      exact (List.map_congr_left (fun t _ => rfl)).trans (List.map_id _)
    · intro tag htag h0
      show (tag, ([] : List String)) ∈ (buildResult env' resp' url' depth' parent' ct').headings
      unfold buildResult extractHeadings
      dsimp only
      refine List.mem_map.mpr ⟨tag, htag, ?_⟩
      rw [h0]
      rfl

/-- C9 witness: a page with a whitespace-only title, no meta tags and
no headings yields the fallback title `'No title'`, empty description
and keywords, the six heading keys, and an empty `h3` list. -/
theorem claim_C9_metadata_fallbacks_witness :
    (crawlPage optsRetry envEmpty st0 "u" 0 none).outcome =
      .ok (some (buildResult envEmpty respEmpty "u" 0 none
        (respEmpty.contentTypeHeader.getD ""))) ∧
    (buildResult envEmpty respEmpty "u" 0 none "text/html").title = "No title" ∧
    (buildResult envEmpty respEmpty "u" 0 none "text/html").description = "" ∧
    (buildResult envEmpty respEmpty "u" 0 none "text/html").keywords = "" ∧
    (buildResult envEmpty respEmpty "u" 0 none "text/html").headings.map Prod.fst =
      headingTags ∧
    ("h3", ([] : List String)) ∈
      (buildResult envEmpty respEmpty "u" 0 none "text/html").headings := by
  have h := claim_C9_metadata_fallbacks optsRetry envEmpty st0 "u" 0 none respEmpty
    (by decide) (Or.inl rfl) rfl (by decide)
  have h2 := h.2 envEmpty respEmpty "u" 0 none "text/html"
  exact ⟨h.1, h2.1 (by decide), h2.2.1 rfl, h2.2.2.1 rfl, h2.2.2.2.1,
         h2.2.2.2.2 "h3" (by decide) rfl⟩

/-- C10.  `crawl` never resets instance state: a run's final results
extend the instance's existing results (never cleared), the visited
and failed sets only grow, a `crawlPage` call for a URL visited in an
earlier run returns `null` immediately, and a second run whose seed
was already visited appends nothing — runs on one instance are not
independent. -/
theorem claim_C10_no_reset (opts : Options) (env : Env)
    (hC : 0 < opts.maxConcurrency) :
    (∀ (st : CrawlerState) (startUrl : String) (t : Nat),
      st.results <+: (crawl opts env hC st startUrl t).state.results) ∧
    (∀ (st : CrawlerState) (startUrl : String) (t : Nat) (x : String),
      x ∈ st.visitedUrls → x ∈ (crawl opts env hC st startUrl t).state.visitedUrls) ∧
    (∀ (st : CrawlerState) (startUrl : String) (t : Nat) (x : String),
      x ∈ st.failedUrls → x ∈ (crawl opts env hC st startUrl t).state.failedUrls) ∧
    (∀ (st : CrawlerState) (url : String) (depth : Nat) (parent : Option String),
      url ∈ st.visitedUrls →
      (crawlPage opts env st url depth parent).outcome = .ok none) ∧
    (∀ (st : CrawlerState) (startUrl : String) (t : Nat),
      startUrl ∈ st.visitedUrls →
      (crawl opts env hC st startUrl t).state.results = st.results) := by
  refine ⟨?_, ?_, ?_, ?_, ?_⟩
  · exact fun st u t => crawlLoop_results_prefix opts env hC st [⟨u, 0, none⟩] []
  · exact fun st u t x h => crawlLoop_visited_mono opts env hC st [⟨u, 0, none⟩] [] x h
  · exact fun st u t x h => crawlLoop_failed_mono opts env hC st [⟨u, 0, none⟩] [] x h
  · intro st url depth parent h
    rw [crawlPage_visited opts env st url depth parent h]
  · intro st u t hu
    rw [crawl]
    dsimp only
    by_cases hcond : ([(⟨u, 0, none⟩ : QueueItem)] ≠ [] ∧
        st.results.length < opts.maxPages)
    · rw [crawlLoop_step_batch opts env hC st [⟨u, 0, none⟩] [] [⟨u, 0, none⟩] [] hcond
        (List.take_of_length_le (by simpa using hC))
        (List.drop_eq_nil_of_le (by simpa using hC))
        (st, [.ok none])
        (by simp only [dispatchBatch]
            rw [crawlPage_visited opts env st u 0 none hu])
        (st, [], [])
        rfl]
      rw [crawlLoop_stop opts env hC st [] [] (by simp)]
    · rw [crawlLoop_stop opts env hC st [⟨u, 0, none⟩] [] hcond]

/-- C10 witness: on an instance that has already visited `"s"`, a new
`crawl("s")` leaves the results untouched and `crawlPage` skips the
seed; prior results, visited URLs and failed URLs survive a run. -/
theorem claim_C10_no_reset_witness :
    st0.results <+: (crawl optsBase sampleEnv (by decide) st0 "s" 0).state.results ∧
    "s" ∈ (crawl optsBase sampleEnv (by decide) stV "s" 0).state.visitedUrls ∧
    "f" ∈ (crawl optsBase sampleEnv (by decide)
      ⟨[], ["f"], [], []⟩ "s" 0).state.failedUrls ∧
    (crawlPage optsBase sampleEnv stV "s" 0 none).outcome = .ok none ∧
    (crawl optsBase sampleEnv (by decide) stV "s" 0).state.results = stV.results := by
  have h := claim_C10_no_reset optsBase sampleEnv (by decide)
  exact ⟨h.1 st0 "s" 0, h.2.1 stV "s" 0 "s" (by decide),
         h.2.2.1 ⟨[], ["f"], [], []⟩ "s" 0 "f" (by decide),
         h.2.2.2.1 stV "s" 0 none (by decide), h.2.2.2.2 stV "s" 0 (by decide)⟩
